import Mathlib

/-!
Shallow embedding of the mermaid-sonar diagram analysis core.

Strings from the TypeScript source are modelled as `List Char`; JavaScript
`Map` objects are modelled as association lists with unique keys kept in
insertion order; JavaScript numbers used as thresholds and densities are
modelled as `ℚ`; counts are `ℕ`.  Fallible operations return `Option`.
Numeric-to-string formatting inside human-readable messages is approximated
(the claims under verification never concern message text).
-/

namespace MermaidSonar

/-- Strings are lists of characters. -/
abbrev Str := List Char

/-- JavaScript `\w` character class: ASCII letters, digits, underscore. -/
def isWordChar (c : Char) : Bool :=
  c.isAlphanum || c = '_'

/-- JavaScript whitespace (`\s`, and the characters removed by `trim`),
restricted to the ASCII whitespace characters that can occur here. -/
def jsIsSpace (c : Char) : Bool :=
  c = ' ' || c = '\t' || c = '\n' || c = '\r' || c = '\x0b' || c = '\x0c'

/-- `String.prototype.trim`: drop leading and trailing whitespace. -/
def trim (s : Str) : Str :=
  ((s.dropWhile jsIsSpace).reverse.dropWhile jsIsSpace).reverse

/-- `content.split('\n')`. -/
def splitLinesAux : Str → Str → List Str
  | acc, [] => [acc.reverse]
  | acc, c :: rest =>
    if c = '\n' then acc.reverse :: splitLinesAux [] rest
    else splitLinesAux (c :: acc) rest

/-- Split a string into its lines at newline characters. -/
def splitLines (s : Str) : List Str :=
  splitLinesAux [] s

/-- `s.startsWith(p)`. -/
def strStarts (s p : Str) : Bool :=
  decide (s.take p.length = p)

/-- Left brace character (shape-delimiter in diagram syntax). -/
def lbrace : Char := '\x7b'

/-- Right brace character. -/
def rbrace : Char := '\x7d'

/-- Left parenthesis, the character whose presence classifies a class member
as a method. -/
def lparen : Char := '('

/-- Severity levels of issues (`'info' | 'warning' | 'error'`). -/
inductive Severity where
  | info
  | warning
  | error
deriving DecidableEq, Repr

/-- A diagram value handed to the core by the extractor: raw source text,
dialect tag, originating file path, 1-indexed start line. -/
structure Diagram where
  content : Str
  dtype : Str
  filePath : Str
  startLine : Nat
deriving DecidableEq, Repr

/-- The metrics snapshot consumed by rules. -/
structure Metrics where
  nodeCount : Nat
  edgeCount : Nat
  graphDensity : ℚ
  maxBranchWidth : Nat
  averageDegree : ℚ
deriving DecidableEq, Repr

/-- An issue reported by a rule check. -/
structure Issue where
  rule : Str
  severity : Severity
  message : Str
  filePath : Str
  line : Nat
  suggestion : Option Str
  citation : Option Str
deriving DecidableEq, Repr

/-- Per-rule resolved configuration as consumed by a rule check
(`config.threshold`, `config.severity`, `config.densityThreshold`);
absent fields fall back to the rule's defaults inside the check. -/
structure RuleConfig where
  threshold : Option ℚ
  severity : Option Severity
  densityThreshold : Option ℚ
deriving DecidableEq, Repr

/-- The empty rule configuration `{}`: every field falls back to the rule's
built-in default. -/
def defaultRuleConfig : RuleConfig := ⟨none, none, none⟩

/-- A rule: name, default severity, optional default threshold, check. -/
structure Rule where
  name : Str
  defaultSeverity : Severity
  defaultThreshold : Option ℚ
  check : Diagram → Metrics → RuleConfig → Option Issue

/-- Decimal digits of a natural number (for message interpolation). -/
def natStr (n : Nat) : Str :=
  (Nat.repr n).data

/-- Approximate JavaScript number formatting for a rational threshold. -/
def ratStr (q : ℚ) : Str :=
  if q.den = 1 then (Int.repr q.num).data
  else (Int.repr q.num).data ++ '/' :: natStr q.den

/-- `src/rules/max-edges.ts` check: issue iff `metrics.edgeCount > threshold`
with `threshold = config.threshold ?? defaultThreshold(100)` and
`severity = config.severity ?? 'error'`. -/
def maxEdgesCheck (diagram : Diagram) (metrics : Metrics) (config : RuleConfig) :
    Option Issue :=
  let threshold : ℚ := config.threshold.getD 100
  let severity := config.severity.getD Severity.error
  if (metrics.edgeCount : ℚ) > threshold then
    some
      { rule := "max-edges".data
        severity := severity
        message := "Too many connections (".data ++ natStr metrics.edgeCount
          ++ " > ".data ++ ratStr threshold ++ ")".data
        filePath := diagram.filePath
        line := diagram.startLine
        suggestion := some ("Split into multiple diagrams or use subgraphs to reduce complexity. Consider breaking down into logical components with separate diagrams.".data)
        citation := some ("Mermaid Official Docs: https://docs.mermaidchart.com/blog/posts/flow-charts-are-on2-complex-so-dont-go-over-100-connections".data) }
  else none

/-- The `max-edges` rule object. -/
def maxEdgesRule : Rule :=
  ⟨"max-edges".data, Severity.error, some 100, maxEdgesCheck⟩

/-- `src/rules/cognitive-load.ts` high-density check: issue iff
`nodeCount > (config.threshold ?? 50)` and
`graphDensity > (config.densityThreshold ?? 0.3)`. -/
def maxNodesHighDensityCheck (diagram : Diagram) (metrics : Metrics)
    (config : RuleConfig) : Option Issue :=
  let threshold : ℚ := config.threshold.getD 50
  let densityThreshold : ℚ := config.densityThreshold.getD (3 / 10)
  let severity := config.severity.getD Severity.warning
  if (metrics.nodeCount : ℚ) > threshold ∧ metrics.graphDensity > densityThreshold then
    some
      { rule := "max-nodes-high-density".data
        severity := severity
        message := "High cognitive load: ".data ++ natStr metrics.nodeCount
          ++ " nodes with high density".data
        filePath := diagram.filePath
        line := diagram.startLine
        suggestion := some ("High-density diagrams with many nodes are difficult to comprehend. Consider splitting into multiple smaller diagrams or reducing connections between nodes.".data)
        citation := some ("Research: arXiv:2008.07944 - Cognitive Load in Diagram Comprehension".data) }
  else none

/-- The `max-nodes-high-density` rule object. -/
def maxNodesHighDensityRule : Rule :=
  ⟨"max-nodes-high-density".data, Severity.warning, some 50, maxNodesHighDensityCheck⟩

/-- `src/rules/cognitive-load.ts` low-density check: issue iff
`nodeCount > (config.threshold ?? 100)` and `graphDensity <= 0.3`
(the density bound is hard-coded in this rule). -/
def maxNodesLowDensityCheck (diagram : Diagram) (metrics : Metrics)
    (config : RuleConfig) : Option Issue :=
  let threshold : ℚ := config.threshold.getD 100
  let densityThreshold : ℚ := 3 / 10
  let severity := config.severity.getD Severity.warning
  if (metrics.nodeCount : ℚ) > threshold ∧ metrics.graphDensity ≤ densityThreshold then
    some
      { rule := "max-nodes-low-density".data
        severity := severity
        message := "Too many nodes (".data ++ natStr metrics.nodeCount
          ++ " > ".data ++ ratStr threshold ++ ") even with low density".data
        filePath := diagram.filePath
        line := diagram.startLine
        suggestion := some ("Even sparse diagrams become hard to navigate with too many nodes. Consider organizing into hierarchical diagrams or multiple views.".data)
        citation := some ("Research: arXiv:2008.07944 - Cognitive Load in Diagram Comprehension".data) }
  else none

/-- The `max-nodes-low-density` rule object. -/
def maxNodesLowDensityRule : Rule :=
  ⟨"max-nodes-low-density".data, Severity.warning, some 100, maxNodesLowDensityCheck⟩

/-- Character class `[A-Z0-9]` of the decision-node identifier pattern. -/
def isUpperOrDigit (c : Char) : Bool :=
  c.isUpper || c.isDigit

/-- Word-boundary test (`\b`) before a word character, given the previous
character (`none` at the start of the text). -/
def atBoundary : Option Char → Bool
  | none => true
  | some p => !isWordChar p

/-- One attempt of the decision-node pattern `([A-Z][A-Z0-9]*)\s*\{[^}]*\}`
at the current position (the `\b` is checked by the caller); on success
returns the captured identifier and the remainder after the match. -/
def matchDecisionAt (s : Str) : Option (Str × Str) :=
  match s with
  | [] => none
  | c :: _ =>
    if c.isUpper then
      let run := s.takeWhile isUpperOrDigit
      let r := (s.dropWhile isUpperOrDigit).dropWhile jsIsSpace
      match r with
      | b :: r2 =>
        if b = lbrace then
          match r2.dropWhile (fun c => !(c = rbrace)) with
          | b2 :: r4 => if b2 = rbrace then some (run, r4) else none
          | [] => none
        else none
      | [] => none
    else none

/-- Global scan of `/\b([A-Z][A-Z0-9]*)\s*\{[^}]*\}/g`, returning the list
of captured identifiers in order.  The fuel argument bounds the number of
scanning steps; each step consumes at least one character, so fuel equal to
the text length is always sufficient. -/
def decisionScanF : Nat → Option Char → Str → List Str
  | 0, _, _ => []
  | _, _, [] => []
  | fuel + 1, prev, c :: rest =>
    if atBoundary prev then
      match matchDecisionAt (c :: rest) with
      | some (run, rem) => run :: decisionScanF fuel (some rbrace) rem
      | none => decisionScanF fuel (some c) rest
    else decisionScanF fuel (some c) rest

/-- All decision-node identifiers matched in the content. -/
def decisionMatches (content : Str) : List Str :=
  decisionScanF content.length none content

/-- `countDecisionNodes` from `src/rules/cyclomatic-complexity.ts`:
the number of matches of the diamond-node pattern. -/
def countDecisionNodes (content : Str) : Nat :=
  (decisionMatches content).length

/-- `calculateCyclomaticComplexity`: decision-node count plus one. -/
def calculateCyclomaticComplexity (decisionNodeCount : Nat) : Nat :=
  decisionNodeCount + 1

/-- `src/rules/cyclomatic-complexity.ts` check: issue iff
`complexity > (config.threshold ?? 10)`, with severity
`config.severity ?? 'warning'`. -/
def cyclomaticComplexityCheck (diagram : Diagram) (_metrics : Metrics)
    (config : RuleConfig) : Option Issue :=
  let threshold : ℚ := config.threshold.getD 10
  let severity := config.severity.getD Severity.warning
  let decisionCount := countDecisionNodes diagram.content
  let complexity := calculateCyclomaticComplexity decisionCount
  if (complexity : ℚ) > threshold then
    some
      { rule := "cyclomatic-complexity".data
        severity := severity
        message := "High cyclomatic complexity (".data ++ natStr complexity
          ++ " > ".data ++ ratStr threshold ++ ") with ".data
          ++ natStr decisionCount ++ " decision nodes".data
        filePath := diagram.filePath
        line := diagram.startLine
        suggestion := some ("High decision complexity makes diagrams hard to follow. Consider extracting decision logic into separate sub-diagrams or simplifying the flow.".data)
        citation := some ("McCabe's Cyclomatic Complexity - Software Engineering Standards (IEEE)".data) }
  else none

/-- The `cyclomatic-complexity` rule object. -/
def cyclomaticComplexityRule : Rule :=
  ⟨"cyclomatic-complexity".data, Severity.warning, some 10, cyclomaticComplexityCheck⟩

/-- The `RESERVED_WORDS` set of the reserved-words rule. -/
def RESERVED_WORDS : List Str :=
  ["end".data, "click".data, "call".data, "style".data, "class".data,
   "classDef".data, "direction".data]

/-- Structural keywords never extracted as node identifiers. -/
def structuralKeywords : List Str :=
  ["graph".data, "flowchart".data, "subgraph".data, "LR".data, "TD".data,
   "TB".data, "RL".data, "BT".data, "LD".data, "RD".data]

/-- Is the (trimmed) line one of the skipped directive lines
(`style `, `class `, `classDef `, `click `, `direction `, bare `end`)? -/
def isDirectiveLine (t : Str) : Bool :=
  strStarts t ("style ".data) || strStarts t ("class ".data) ||
  strStarts t ("classDef ".data) || strStarts t ("click ".data) ||
  strStarts t ("direction ".data) || t = "end".data

/-- Is the (trimmed) line a graph/subgraph declaration line? -/
def isGraphDeclLine (t : Str) : Bool :=
  strStarts t ("graph ".data) || strStarts t ("flowchart ".data) ||
  strStarts t ("subgraph ".data)

/-- Global scan of `/\b([a-zA-Z_][a-zA-Z0-9_]*)\b/g` over one line:
maximal word runs that start with a letter or underscore (the trailing
`\b` holds automatically at a maximal run).  Fuel as in `decisionScanF`. -/
def lineTokensF : Nat → Option Char → Str → List Str
  | 0, _, _ => []
  | _, _, [] => []
  | fuel + 1, prev, c :: rest =>
    if atBoundary prev ∧ (c.isAlpha || c = '_') then
      (c :: rest.takeWhile isWordChar)
        :: lineTokensF fuel (some c) (rest.dropWhile isWordChar)
    else lineTokensF fuel (some c) rest

/-- Node identifiers contributed by one raw line: directive lines and
graph-declaration lines contribute nothing; otherwise the word tokens of
the trimmed line minus the structural keywords. -/
def lineNodeIds (line : Str) : List Str :=
  let t := trim line
  if isDirectiveLine t then []
  else if isGraphDeclLine t then []
  else (lineTokensF t.length none t).filter
    (fun nodeId => !(structuralKeywords.contains nodeId))

/-- `Set.add` semantics: append if not already present. -/
def insertUnique (acc : List Str) (x : Str) : List Str :=
  if x ∈ acc then acc else acc ++ [x]

/-- `extractNodeIds` from `src/rules/cyclomatic-complexity.ts` (reserved
words rule): collect node identifiers from every line into an
insertion-ordered set. -/
def extractNodeIds (content : Str) : List Str :=
  (((splitLines content).map lineNodeIds).flatten).foldl insertUnique []

/-- `isReservedWord`: lower-cased membership in `RESERVED_WORDS`. -/
def isReservedWord (nodeId : Str) : Bool :=
  RESERVED_WORDS.contains (nodeId.map Char.toLower)

/-- `hasProblematicPattern`: test of `/^[ox]\d+$/i` — the whole identifier
is a letter `o` or `x` (either case) followed by one or more digits. -/
def hasProblematicPattern (nodeId : Str) : Bool :=
  match nodeId with
  | [] => false
  | c :: rest =>
    (c = 'o' || c = 'O' || c = 'x' || c = 'X') && !rest.isEmpty &&
      rest.all Char.isDigit

/-- `reservedWordsRule.check`: flags the extracted identifiers that are
reserved words or have the problematic pattern; issue iff either list is
nonempty (the message and suggestion text are approximated). -/
def reservedWordsCheck (diagram : Diagram) (_metrics : Metrics)
    (config : RuleConfig) : Option Issue :=
  let severity := config.severity.getD Severity.warning
  let nodeIds := extractNodeIds diagram.content
  let reserved := nodeIds.filter isReservedWord
  let problematic := nodeIds.filter hasProblematicPattern
  if reserved.isEmpty ∧ problematic.isEmpty then none
  else
    some
      { rule := "reserved-words".data
        severity := severity
        message := "Found ".data ++ natStr (reserved.length + problematic.length)
          ++ " reserved/problematic node ID(s)".data
        filePath := diagram.filePath
        line := diagram.startLine
        suggestion := some ("Avoid reserved words and conflicting patterns".data)
        citation := none }

/-- The `reserved-words` rule object. -/
def reservedWordsRule : Rule :=
  ⟨"reserved-words".data, Severity.warning, none, reservedWordsCheck⟩

/-- Three-tier pixel thresholds of a viewport profile. -/
structure TierThresholds where
  info : Nat
  warning : Nat
  error : Nat
deriving DecidableEq, Repr

/-- A resolved viewport profile. -/
structure ViewportProfile where
  name : Str
  description : Str
  maxWidth : Nat
  maxHeight : Nat
  widthThresholds : TierThresholds
  heightThresholds : TierThresholds
deriving DecidableEq, Repr

/-- `builtInViewportProfiles` from the viewport-profiles module. -/
def builtInViewportProfiles : List (Str × ViewportProfile) :=
  [("default".data,
    { name := "default".data
      description := "Standard browser viewport".data
      maxWidth := 2500, maxHeight := 2000
      widthThresholds := ⟨1500, 2000, 2500⟩
      heightThresholds := ⟨800, 1200, 2000⟩ }),
   ("mkdocs".data,
    { name := "mkdocs".data
      description := "MkDocs documentation framework with sidebar (~800-900px content width)".data
      maxWidth := 800, maxHeight := 1500
      widthThresholds := ⟨600, 700, 800⟩
      heightThresholds := ⟨1000, 1200, 1500⟩ }),
   ("docusaurus".data,
    { name := "docusaurus".data
      description := "Docusaurus documentation framework (~900-1000px content width)".data
      maxWidth := 900, maxHeight := 1500
      widthThresholds := ⟨700, 800, 900⟩
      heightThresholds := ⟨1000, 1200, 1500⟩ }),
   ("github".data,
    { name := "github".data
      description := "GitHub README and markdown files (~1000px content width)".data
      maxWidth := 1000, maxHeight := 1800
      widthThresholds := ⟨800, 900, 1000⟩
      heightThresholds := ⟨1200, 1500, 1800⟩ }),
   ("mobile".data,
    { name := "mobile".data
      description := "Mobile device constraints (400px width)".data
      maxWidth := 400, maxHeight := 800
      widthThresholds := ⟨300, 350, 400⟩
      heightThresholds := ⟨600, 700, 800⟩ })]

/-- A class node of the class-diagram parser. -/
structure ClassNode where
  name : Str
  attributes : List Str
  methods : List Str
deriving DecidableEq, Repr

/-- Relationship kinds of class diagrams. -/
inductive RelationshipType where
  | inheritance
  | composition
  | aggregation
  | association
  | dependency
deriving DecidableEq, Repr

/-- A relationship between classes; `multiplicity` is present exactly for
associations (both of its sides may individually be absent). -/
structure ClassRelationship where
  «from» : Str
  «to» : Str
  type : RelationshipType
  label : Option Str
  multiplicity : Option (Option Str × Option Str)
deriving DecidableEq, Repr

/-- The class map (JavaScript `Map<string, ClassNode>` with unique keys in
insertion order). -/
abbrev ClassMap := List (Str × ClassNode)

/-- `classes.has(name) || classes.set(name, empty)`: append an empty class
node at the end when the key is absent. -/
def cmEnsure (m : ClassMap) (name : Str) : ClassMap :=
  if m.any (fun e => e.1 = name) then m
  else m ++ [(name, ⟨name, [], []⟩)]

/-- Push a member into a class node: onto `methods` when the member text
contains `'('`, else onto `attributes`. -/
def pushMember (node : ClassNode) (member : Str) : ClassNode :=
  if lparen ∈ member then
    { node with methods := node.methods ++ [member] }
  else
    { node with attributes := node.attributes ++ [member] }

/-- `classes.get(name)!.push(member)`: update the (unique) entry for the
key; keys are unique by construction so updating the first occurrence
matches the JavaScript `Map` mutation. -/
def cmAddMember : ClassMap → Str → Str → ClassMap
  | [], _, _ => []
  | (k, node) :: rest, name, member =>
    if k = name then (k, pushMember node member) :: rest
    else (k, node) :: cmAddMember rest name member

/-- `Map.get`. -/
def cmGet : ClassMap → Str → Option ClassNode
  | [], _ => none
  | (k, node) :: rest, name => if k = name then some node else cmGet rest name

/-- `Array.from(classes.keys())`. -/
def cmKeys (m : ClassMap) : List Str :=
  m.map (fun e => e.1)

/-- Match of `/^class\s+(\w+)\s*(\{?)/` on a trimmed line: the class name
and whether an opening brace follows. -/
def matchClass (s : Str) : Option (Str × Bool) :=
  if s.take 5 = "class".data then
    match s.drop 5 with
    | [] => none
    | c :: rest =>
      if jsIsSpace c then
        let r := rest.dropWhile jsIsSpace
        let name := r.takeWhile isWordChar
        if name.isEmpty then none
        else
          let r2 := (r.dropWhile isWordChar).dropWhile jsIsSpace
          match r2 with
          | b :: _ => some (name, b = lbrace)
          | [] => some (name, false)
      else none
  else none

/-- Match of `/^(\w+)\s*:\s*(.+)/` on a trimmed line: class name and raw
member capture.  When everything after the colon is whitespace, `\s*`
backtracks so that `(.+)` captures the final whitespace character. -/
def matchMember (s : Str) : Option (Str × Str) :=
  let w := s.takeWhile isWordChar
  if w.isEmpty then none
  else
    match (s.dropWhile isWordChar).dropWhile jsIsSpace with
    | c :: rest =>
      if c = ':' then
        let member := rest.dropWhile jsIsSpace
        if !member.isEmpty then some (w, member)
        else
          match rest.getLast? with
          | some lastc => some (w, [lastc])
          | none => none
      else none
    | [] => none

/-- Match of `/^([+\-#~])?\s*(.+)/`: the raw member capture.  When the rest
after an initial visibility sign is empty or all whitespace the regex
backtracks (dropping the optional sign / shortening `\s*`) so that `(.+)`
still captures at least one character. -/
def matchBlockMember (s : Str) : Option Str :=
  let core : Str → Option Str := fun r =>
    let rem := r.dropWhile jsIsSpace
    if !rem.isEmpty then some rem
    else
      match r.getLast? with
      | some lastc => some [lastc]
      | none => none
  match s with
  | [] => none
  | c :: rest =>
    if c = '+' || c = '-' || c = '#' || c = '~' then
      match core rest with
      | some g => some g
      | none => core s
    else core s

/-- State of the `extractClasses` line loop. -/
structure ClassScanState where
  classes : ClassMap
  currentClass : Option Str
  inClassBlock : Bool
deriving Repr

/-- One iteration of the `extractClasses` loop over a raw line. -/
def classLineStep (st : ClassScanState) (line : Str) : ClassScanState :=
  let trimmed := trim line
  if strStarts trimmed ("%%".data) then st
  else
    match matchClass trimmed with
    | some (className, hasOpenBrace) =>
      let classes := cmEnsure st.classes className
      if hasOpenBrace then ⟨classes, some className, true⟩
      else ⟨classes, st.currentClass, st.inClassBlock⟩
    | none =>
      match matchMember trimmed with
      | some (className, rawMember) =>
        let member := trim rawMember
        ⟨cmAddMember (cmEnsure st.classes className) className member,
         st.currentClass, st.inClassBlock⟩
      | none =>
        match st.currentClass, st.inClassBlock with
        | some currentClass, true =>
          if trimmed = [rbrace] then ⟨st.classes, none, false⟩
          else
            match matchBlockMember trimmed with
            | some rawMember =>
              if !trimmed.isEmpty then
                ⟨cmAddMember st.classes currentClass (trim rawMember),
                 st.currentClass, st.inClassBlock⟩
              else st
            | none => st
        | _, _ => st

/-- `extractClasses` from `src/graph/class-parser.ts`. -/
def extractClasses (content : Str) : ClassMap :=
  ((splitLines content).foldl classLineStep ⟨[], none, false⟩).classes

/-- Leftmost-match scan: try the matcher at every start position from the
left, as JavaScript `RegExp.exec` does for an unanchored pattern. -/
def scanFirst {α : Type} (f : Str → Option α) : Str → Option α
  | [] => f []
  | c :: rest =>
    match f (c :: rest) with
    | some r => some r
    | none => scanFirst f rest

/-- The optional trailing label group `(?:\s*:\s*(.+))?`.  When the text
after the colon is nonempty whitespace only, `\s*` backtracks and `(.+)`
captures the final whitespace character. -/
def matchLabelOpt (s : Str) : Option Str :=
  match s.dropWhile jsIsSpace with
  | c :: rest =>
    if c = ':' then
      let lbl := rest.dropWhile jsIsSpace
      if !lbl.isEmpty then some lbl
      else
        match rest.getLast? with
        | some lastc => some [lastc]
        | none => none
    else none
  | [] => none

/-- Common tail `\s*(\w+)(?:\s*:\s*(.+))?` of the relationship patterns:
the target identifier and the optional label capture. -/
def matchTail (s : Str) : Option (Str × Option Str) :=
  let r := s.dropWhile jsIsSpace
  let w := r.takeWhile isWordChar
  if w.isEmpty then none
  else some (w, matchLabelOpt (r.dropWhile isWordChar))

/-- `(\w+)\s*<\|--\s*(\w+)(?:\s*:\s*(.+))?` at the current position.
`(\w+)` is forced to the maximal word run: with a shorter run the next
pattern character `<` would have to match a word character. -/
def matchInheritAt (s : Str) : Option (Str × Str × Option Str) :=
  let w1 := s.takeWhile isWordChar
  if w1.isEmpty then none
  else
    let r := (s.dropWhile isWordChar).dropWhile jsIsSpace
    if strStarts r ("<|--".data) then
      match matchTail (r.drop 4) with
      | some (w2, lbl) => some (w1, w2, lbl)
      | none => none
    else none

/-- `(\w+)\s*\*--\s*(\w+)(?:\s*:\s*(.+))?` at the current position. -/
def matchCompositionAt (s : Str) : Option (Str × Str × Option Str) :=
  let w1 := s.takeWhile isWordChar
  if w1.isEmpty then none
  else
    let r := (s.dropWhile isWordChar).dropWhile jsIsSpace
    if strStarts r ("*--".data) then
      match matchTail (r.drop 3) with
      | some (w2, lbl) => some (w1, w2, lbl)
      | none => none
    else none

/-- `(\w+)\s*o--\s*(\w+)(?:\s*:\s*(.+))?` at the current position.  Since
`o` is itself a word character the backtracking of the greedy `(\w+)` has
exactly two viable candidates: the maximal word run followed by whitespace
and `o--`, or the maximal run ending in `o` with `--` immediately after
it (then `(\w+)` captures the run without its final `o`). -/
def matchAggregationAt (s : Str) : Option (Str × Str × Option Str) :=
  let run := s.takeWhile isWordChar
  if run.isEmpty then none
  else
    let after := s.dropWhile isWordChar
    let cand2 : Option (Str × Str × Option Str) :=
      match run.getLast? with
      | some lastc =>
        if lastc = 'o' ∧ run.length ≥ 2 ∧ strStarts after ("--".data) then
          match matchTail (after.drop 2) with
          | some (w2, lbl) => some (run.dropLast, w2, lbl)
          | none => none
        else none
      | none => none
    let r := after.dropWhile jsIsSpace
    if strStarts r ("o--".data) then
      match matchTail (r.drop 3) with
      | some (w2, lbl) => some (run, w2, lbl)
      | none => cand2
    else cand2

/-- `(\w+)\s*\.\.>\s*(\w+)(?:\s*:\s*(.+))?` at the current position. -/
def matchDependencyAt (s : Str) : Option (Str × Str × Option Str) :=
  let w1 := s.takeWhile isWordChar
  if w1.isEmpty then none
  else
    let r := (s.dropWhile isWordChar).dropWhile jsIsSpace
    if strStarts r ("..>".data) then
      match matchTail (r.drop 3) with
      | some (w2, lbl) => some (w1, w2, lbl)
      | none => none
    else none

/-- Captures of the association pattern after the source identifier. -/
structure AssocCapture where
  multFrom : Option Str
  multTo : Option Str
  target : Str
  label : Option Str
deriving DecidableEq, Repr

/-- Rest of the association pattern from `\s*-->` on:
`\s*-->\s*(?:"([^"]+)")?\s*(\w+)(?:\s*:\s*(.+))?`; the second quoted
group is tried greedily and dropped if the rest then fails. -/
def matchAssocRest (s : Str) : Option AssocCapture :=
  let r2 := s.dropWhile jsIsSpace
  if strStarts r2 ("-->".data) then
    let r3 := (r2.drop 3).dropWhile jsIsSpace
    let finish : Str → Option Str → Option AssocCapture := fun r m2 =>
      let r4 := r.dropWhile jsIsSpace
      let w2 := r4.takeWhile isWordChar
      if w2.isEmpty then none
      else some ⟨none, m2, w2, matchLabelOpt (r4.dropWhile isWordChar)⟩
    match r3 with
    | c :: q =>
      if c = '"' then
        let qcontent := q.takeWhile (fun ch => !(ch = '"'))
        match q.dropWhile (fun ch => !(ch = '"')) with
        | c2 :: r5 =>
          if c2 = '"' ∧ !qcontent.isEmpty then
            match finish r5 (some qcontent) with
            | some cap => some cap
            | none => finish r3 none
          else finish r3 none
        | [] => finish r3 none
      else finish r3 none
    | [] => finish r3 none
  else none

/-- `(\w+)\s*(?:"([^"]+)")?\s*-->\s*(?:"([^"]+)")?\s*(\w+)(?:\s*:\s*(.+))?`
at the current position; the first quoted multiplicity group is tried
greedily and dropped when the rest of the pattern then fails. -/
def matchAssociationAt (s : Str) : Option (Str × AssocCapture) :=
  let w1 := s.takeWhile isWordChar
  if w1.isEmpty then none
  else
    let after := s.dropWhile isWordChar
    let r1 := after.dropWhile jsIsSpace
    let withQuote : Option AssocCapture :=
      match r1 with
      | c :: q =>
        if c = '"' then
          let qcontent := q.takeWhile (fun ch => !(ch = '"'))
          match q.dropWhile (fun ch => !(ch = '"')) with
          | c2 :: r5 =>
            if c2 = '"' ∧ !qcontent.isEmpty then
              match matchAssocRest r5 with
              | some cap => some { cap with multFrom := some qcontent }
              | none => none
            else none
          | [] => none
        else none
      | [] => none
    match withQuote with
    | some cap => some (w1, cap)
    | none =>
      match matchAssocRest after with
      | some cap => some (w1, cap)
      | none => none

/-- One iteration of the `extractRelationships` loop over a raw line:
skip comment and `class ` lines, then try the five relationship patterns
in source order, first match wins. -/
def relOfLine (line : Str) : Option ClassRelationship :=
  let trimmed := trim line
  if strStarts trimmed ("%%".data) || strStarts trimmed ("class ".data) then
    none
  else
    match scanFirst matchInheritAt trimmed with
    | some (parent, child, lbl) =>
      some ⟨child, parent, RelationshipType.inheritance, lbl.map trim, none⟩
    | none =>
      match scanFirst matchCompositionAt trimmed with
      | some (a, b, lbl) =>
        some ⟨a, b, RelationshipType.composition, lbl.map trim, none⟩
      | none =>
        match scanFirst matchAggregationAt trimmed with
        | some (a, b, lbl) =>
          some ⟨a, b, RelationshipType.aggregation, lbl.map trim, none⟩
        | none =>
          match scanFirst matchDependencyAt trimmed with
          | some (a, b, lbl) =>
            some ⟨a, b, RelationshipType.dependency, lbl.map trim, none⟩
          | none =>
            match scanFirst matchAssociationAt trimmed with
            | some (a, cap) =>
              some ⟨a, cap.target, RelationshipType.association,
                cap.label.map trim, some (cap.multFrom, cap.multTo)⟩
            | none => none

/-- `extractRelationships` from `src/graph/class-parser.ts`. -/
def extractRelationships (content : Str) : List ClassRelationship :=
  (splitLines content).filterMap relOfLine

/-- A canonical-graph edge. -/
structure Edge where
  «from» : Str
  «to» : Str
  label : Option Str
deriving DecidableEq, Repr

/-- Adjacency maps as association lists with unique keys in insertion
order. -/
abbrev AdjList := List (Str × List Str)

/-- `Map.get`. -/
def alGet : AdjList → Str → Option (List Str)
  | [], _ => none
  | (k, l) :: rest, key => if k = key then some l else alGet rest key

/-- The has/set/push step of the adjacency construction: append `v` to the
(unique) entry for `k`, creating the entry at the end when absent. -/
def alPush : AdjList → Str → Str → AdjList
  | [], k, v => [(k, [v])]
  | (k', l) :: rest, k, v =>
    if k' = k then (k', l ++ [v]) :: rest
    else (k', l) :: alPush rest k v

/-- The canonical graph representation. -/
structure GraphRepresentation where
  nodes : List Str
  edges : List Edge
  adjacencyList : AdjList
  reverseAdjacencyList : AdjList
deriving DecidableEq, Repr

/-- `buildGraphFromRelationships` from `src/graph/class-parser.ts`:
nodes are the class-map keys; edges mirror the relationships; the loop
over the edges updates forward and reverse adjacency together. -/
def buildGraphFromRelationships (classes : ClassMap)
    (relationships : List ClassRelationship) : GraphRepresentation :=
  let nodes := cmKeys classes
  let edges : List Edge :=
    relationships.map (fun rel => ⟨rel.«from», rel.«to», rel.label⟩)
  let maps := edges.foldl
    (fun (maps : AdjList × AdjList) edge =>
      (alPush maps.1 edge.«from» edge.«to», alPush maps.2 edge.«to» edge.«from»))
    ([], [])
  ⟨nodes, edges, maps.1, maps.2⟩

/-- Result of parsing a class diagram. -/
structure ClassDiagramParse where
  classes : ClassMap
  relationships : List ClassRelationship
  graph : GraphRepresentation

/-- `parseClassDiagram` from `src/graph/class-parser.ts`. -/
def parseClassDiagram (content : Str) : ClassDiagramParse :=
  let classes := extractClasses content
  let relationships := extractRelationships content
  let graph := buildGraphFromRelationships classes relationships
  ⟨classes, relationships, graph⟩

/-! ## Helper lemmas about the threshold rule checks -/

theorem maxEdgesCheck_isSome_iff (d : Diagram) (m : Metrics) (cfg : RuleConfig) :
    (maxEdgesCheck d m cfg).isSome = true ↔
      (m.edgeCount : ℚ) > cfg.threshold.getD 100 := by
  simp only [maxEdgesCheck]
  split <;> simp_all

theorem maxEdgesCheck_eq_none_iff (d : Diagram) (m : Metrics) (cfg : RuleConfig) :
    maxEdgesCheck d m cfg = none ↔
      ¬((m.edgeCount : ℚ) > cfg.threshold.getD 100) := by
  simp only [maxEdgesCheck]
  split <;> simp_all

theorem maxEdgesCheck_some_fields (d : Diagram) (m : Metrics) (cfg : RuleConfig)
    (i : Issue) (h : maxEdgesCheck d m cfg = some i) :
    i.rule = "max-edges".data ∧ i.severity = cfg.severity.getD Severity.error ∧
      i.filePath = d.filePath ∧ i.line = d.startLine := by
  simp only [maxEdgesCheck] at h
  split at h
  · cases h
    exact ⟨rfl, rfl, rfl, rfl⟩
  · cases h

theorem maxNodesHighDensityCheck_isSome_iff (d : Diagram) (m : Metrics)
    (cfg : RuleConfig) :
    (maxNodesHighDensityCheck d m cfg).isSome = true ↔
      ((m.nodeCount : ℚ) > cfg.threshold.getD 50 ∧
        m.graphDensity > cfg.densityThreshold.getD (3 / 10)) := by
  simp only [maxNodesHighDensityCheck]
  split <;> simp_all

theorem maxNodesHighDensityCheck_eq_none_iff (d : Diagram) (m : Metrics)
    (cfg : RuleConfig) :
    maxNodesHighDensityCheck d m cfg = none ↔
      ¬((m.nodeCount : ℚ) > cfg.threshold.getD 50 ∧
        m.graphDensity > cfg.densityThreshold.getD (3 / 10)) := by
  simp only [maxNodesHighDensityCheck]
  split <;> simp_all

theorem maxNodesLowDensityCheck_isSome_iff (d : Diagram) (m : Metrics)
    (cfg : RuleConfig) :
    (maxNodesLowDensityCheck d m cfg).isSome = true ↔
      ((m.nodeCount : ℚ) > cfg.threshold.getD 100 ∧
        m.graphDensity ≤ 3 / 10) := by
  simp only [maxNodesLowDensityCheck]
  split <;> simp_all

theorem maxNodesLowDensityCheck_eq_none_iff (d : Diagram) (m : Metrics)
    (cfg : RuleConfig) :
    maxNodesLowDensityCheck d m cfg = none ↔
      ¬((m.nodeCount : ℚ) > cfg.threshold.getD 100 ∧
        m.graphDensity ≤ 3 / 10) := by
  simp only [maxNodesLowDensityCheck]
  split <;> simp_all

theorem cyclomaticComplexityCheck_isSome_iff (d : Diagram) (m : Metrics)
    (cfg : RuleConfig) :
    (cyclomaticComplexityCheck d m cfg).isSome = true ↔
      ((calculateCyclomaticComplexity (countDecisionNodes d.content) : ℚ) >
        cfg.threshold.getD 10) := by
  simp only [cyclomaticComplexityCheck]
  split <;> simp_all

theorem cyclomaticComplexityCheck_eq_none_iff (d : Diagram) (m : Metrics)
    (cfg : RuleConfig) :
    cyclomaticComplexityCheck d m cfg = none ↔
      ¬((calculateCyclomaticComplexity (countDecisionNodes d.content) : ℚ) >
        cfg.threshold.getD 10) := by
  simp only [cyclomaticComplexityCheck]
  split <;> simp_all

/-! ## Claim theorems -/

/-- C2: for every diagram, every metrics value and each of the four
threshold rules (max-edges, max-nodes-high-density, max-nodes-low-density,
cyclomatic-complexity), the check is monotone in the configured numeric
threshold with all other inputs fixed: no issue at threshold `t` implies no
issue at any `t' ≥ t`, and an issue at `t'` implies an issue at any
`t ≤ t'`. -/
theorem C2_threshold_monotonicity :
    ∀ (d : Diagram) (m : Metrics) (sev : Option Severity) (dens : Option ℚ)
      (t t' : ℚ), t ≤ t' →
      ((maxEdgesRule.check d m ⟨some t, sev, dens⟩ = none →
          maxEdgesRule.check d m ⟨some t', sev, dens⟩ = none) ∧
        ((maxEdgesRule.check d m ⟨some t', sev, dens⟩).isSome = true →
          (maxEdgesRule.check d m ⟨some t, sev, dens⟩).isSome = true)) ∧
      ((maxNodesHighDensityRule.check d m ⟨some t, sev, dens⟩ = none →
          maxNodesHighDensityRule.check d m ⟨some t', sev, dens⟩ = none) ∧
        ((maxNodesHighDensityRule.check d m ⟨some t', sev, dens⟩).isSome = true →
          (maxNodesHighDensityRule.check d m ⟨some t, sev, dens⟩).isSome = true)) ∧
      ((maxNodesLowDensityRule.check d m ⟨some t, sev, dens⟩ = none →
          maxNodesLowDensityRule.check d m ⟨some t', sev, dens⟩ = none) ∧
        ((maxNodesLowDensityRule.check d m ⟨some t', sev, dens⟩).isSome = true →
          (maxNodesLowDensityRule.check d m ⟨some t, sev, dens⟩).isSome = true)) ∧
      ((cyclomaticComplexityRule.check d m ⟨some t, sev, dens⟩ = none →
          cyclomaticComplexityRule.check d m ⟨some t', sev, dens⟩ = none) ∧
        ((cyclomaticComplexityRule.check d m ⟨some t', sev, dens⟩).isSome = true →
          (cyclomaticComplexityRule.check d m ⟨some t, sev, dens⟩).isSome = true)) := by
  intro d m sev dens t t' ht
  simp only [maxEdgesRule, maxNodesHighDensityRule, maxNodesLowDensityRule,
    cyclomaticComplexityRule]
  refine ⟨⟨?_, ?_⟩, ⟨?_, ?_⟩, ⟨?_, ?_⟩, ⟨?_, ?_⟩⟩
  · rw [maxEdgesCheck_eq_none_iff, maxEdgesCheck_eq_none_iff]
    simp only [Option.getD_some]
    intro h hc
    exact h (lt_of_le_of_lt ht hc)
  · rw [maxEdgesCheck_isSome_iff, maxEdgesCheck_isSome_iff]
    simp only [Option.getD_some]
    intro hc
    exact lt_of_le_of_lt ht hc
  · rw [maxNodesHighDensityCheck_eq_none_iff, maxNodesHighDensityCheck_eq_none_iff]
    simp only [Option.getD_some]
    intro h hc
    exact h ⟨lt_of_le_of_lt ht hc.1, hc.2⟩
  · rw [maxNodesHighDensityCheck_isSome_iff, maxNodesHighDensityCheck_isSome_iff]
    simp only [Option.getD_some]
    intro hc
    exact ⟨lt_of_le_of_lt ht hc.1, hc.2⟩
  · rw [maxNodesLowDensityCheck_eq_none_iff, maxNodesLowDensityCheck_eq_none_iff]
    simp only [Option.getD_some]
    intro h hc
    exact h ⟨lt_of_le_of_lt ht hc.1, hc.2⟩
  · rw [maxNodesLowDensityCheck_isSome_iff, maxNodesLowDensityCheck_isSome_iff]
    simp only [Option.getD_some]
    intro hc
    exact ⟨lt_of_le_of_lt ht hc.1, hc.2⟩
  · rw [cyclomaticComplexityCheck_eq_none_iff, cyclomaticComplexityCheck_eq_none_iff]
    simp only [Option.getD_some]
    intro h hc
    exact h (lt_of_le_of_lt ht hc)
  · rw [cyclomaticComplexityCheck_isSome_iff, cyclomaticComplexityCheck_isSome_iff]
    simp only [Option.getD_some]
    intro hc
    exact lt_of_le_of_lt ht hc

/-- Witness for C2 at a concrete instantiation. -/
theorem C2_threshold_monotonicity_witness :
    ((maxEdgesRule.check ⟨[], [], [], 1⟩ ⟨0, 3, 0, 0, 0⟩ ⟨some 5, none, none⟩ = none →
        maxEdgesRule.check ⟨[], [], [], 1⟩ ⟨0, 3, 0, 0, 0⟩ ⟨some 7, none, none⟩ = none) ∧
      ((maxEdgesRule.check ⟨[], [], [], 1⟩ ⟨0, 3, 0, 0, 0⟩ ⟨some 7, none, none⟩).isSome = true →
        (maxEdgesRule.check ⟨[], [], [], 1⟩ ⟨0, 3, 0, 0, 0⟩ ⟨some 5, none, none⟩).isSome = true)) ∧
    ((maxNodesHighDensityRule.check ⟨[], [], [], 1⟩ ⟨0, 3, 0, 0, 0⟩ ⟨some 5, none, none⟩ = none →
        maxNodesHighDensityRule.check ⟨[], [], [], 1⟩ ⟨0, 3, 0, 0, 0⟩ ⟨some 7, none, none⟩ = none) ∧
      ((maxNodesHighDensityRule.check ⟨[], [], [], 1⟩ ⟨0, 3, 0, 0, 0⟩ ⟨some 7, none, none⟩).isSome = true →
        (maxNodesHighDensityRule.check ⟨[], [], [], 1⟩ ⟨0, 3, 0, 0, 0⟩ ⟨some 5, none, none⟩).isSome = true)) ∧
    ((maxNodesLowDensityRule.check ⟨[], [], [], 1⟩ ⟨0, 3, 0, 0, 0⟩ ⟨some 5, none, none⟩ = none →
        maxNodesLowDensityRule.check ⟨[], [], [], 1⟩ ⟨0, 3, 0, 0, 0⟩ ⟨some 7, none, none⟩ = none) ∧
      ((maxNodesLowDensityRule.check ⟨[], [], [], 1⟩ ⟨0, 3, 0, 0, 0⟩ ⟨some 7, none, none⟩).isSome = true →
        (maxNodesLowDensityRule.check ⟨[], [], [], 1⟩ ⟨0, 3, 0, 0, 0⟩ ⟨some 5, none, none⟩).isSome = true)) ∧
    ((cyclomaticComplexityRule.check ⟨[], [], [], 1⟩ ⟨0, 3, 0, 0, 0⟩ ⟨some 5, none, none⟩ = none →
        cyclomaticComplexityRule.check ⟨[], [], [], 1⟩ ⟨0, 3, 0, 0, 0⟩ ⟨some 7, none, none⟩ = none) ∧
      ((cyclomaticComplexityRule.check ⟨[], [], [], 1⟩ ⟨0, 3, 0, 0, 0⟩ ⟨some 7, none, none⟩).isSome = true →
        (cyclomaticComplexityRule.check ⟨[], [], [], 1⟩ ⟨0, 3, 0, 0, 0⟩ ⟨some 5, none, none⟩).isSome = true)) :=
  C2_threshold_monotonicity ⟨[], [], [], 1⟩ ⟨0, 3, 0, 0, 0⟩ none none 5 7 (by norm_num)

/-- C4: under the default configuration the two node-count rules are gated
on density `0.3`: the high-density rule fires exactly when
`nodeCount > 50` and `graphDensity > 0.3`; the low-density rule fires
exactly when `nodeCount > 100` and `graphDensity ≤ 0.3`; consequently they
never both fire on the same diagram. -/
theorem C4_density_gated_node_rules :
    ∀ (d : Diagram) (m : Metrics),
      ((maxNodesHighDensityRule.check d m defaultRuleConfig).isSome = true ↔
        ((m.nodeCount : ℚ) > 50 ∧ m.graphDensity > 3 / 10)) ∧
      ((maxNodesLowDensityRule.check d m defaultRuleConfig).isSome = true ↔
        ((m.nodeCount : ℚ) > 100 ∧ m.graphDensity ≤ 3 / 10)) ∧
      ¬((maxNodesHighDensityRule.check d m defaultRuleConfig).isSome = true ∧
        (maxNodesLowDensityRule.check d m defaultRuleConfig).isSome = true) := by
  intro d m
  refine ⟨maxNodesHighDensityCheck_isSome_iff d m defaultRuleConfig,
    maxNodesLowDensityCheck_isSome_iff d m defaultRuleConfig, ?_⟩
  rintro ⟨h1, h2⟩
  have a := (maxNodesHighDensityCheck_isSome_iff d m defaultRuleConfig).mp h1
  have b := (maxNodesLowDensityCheck_isSome_iff d m defaultRuleConfig).mp h2
  exact absurd a.2 (not_lt_of_le b.2)

/-- Witness for C4 at a concrete instantiation. -/
theorem C4_density_gated_node_rules_witness :
    (maxNodesHighDensityRule.check ⟨[], [], [], 1⟩ ⟨60, 0, 1 / 2, 0, 0⟩
        defaultRuleConfig).isSome = true ∧
    ¬((maxNodesHighDensityRule.check ⟨[], [], [], 1⟩ ⟨60, 0, 1 / 2, 0, 0⟩
          defaultRuleConfig).isSome = true ∧
      (maxNodesLowDensityRule.check ⟨[], [], [], 1⟩ ⟨60, 0, 1 / 2, 0, 0⟩
          defaultRuleConfig).isSome = true) :=
  ⟨(C4_density_gated_node_rules ⟨[], [], [], 1⟩ ⟨60, 0, 1 / 2, 0, 0⟩).1.mpr
      (by norm_num),
    (C4_density_gated_node_rules ⟨[], [], [], 1⟩ ⟨60, 0, 1 / 2, 0, 0⟩).2.2⟩

/-- C5: `maxEdgesRule.check` returns an issue exactly when
`metrics.edgeCount` strictly exceeds the configured threshold (default 100
when absent) and `none` otherwise; a returned issue carries rule id
`max-edges`, the configured severity (default `error`), the diagram's file
path and the diagram's start line — zero or one issue per diagram by the
`Option` return type. -/
theorem C5_max_edges_check :
    ∀ (d : Diagram) (m : Metrics) (cfg : RuleConfig),
      ((maxEdgesRule.check d m cfg).isSome = true ↔
        (m.edgeCount : ℚ) > cfg.threshold.getD 100) ∧
      (maxEdgesRule.check d m cfg = none ↔
        ¬((m.edgeCount : ℚ) > cfg.threshold.getD 100)) ∧
      (∀ i, maxEdgesRule.check d m cfg = some i →
        i.rule = "max-edges".data ∧ i.severity = cfg.severity.getD Severity.error ∧
          i.filePath = d.filePath ∧ i.line = d.startLine) := by
  intro d m cfg
  exact ⟨maxEdgesCheck_isSome_iff d m cfg, maxEdgesCheck_eq_none_iff d m cfg,
    fun i h => maxEdgesCheck_some_fields d m cfg i h⟩

/-- Witness for C5 at a concrete instantiation. -/
theorem C5_max_edges_check_witness :
    (maxEdgesRule.check ⟨[], [], ['f'], 7⟩ ⟨0, 101, 0, 0, 0⟩
        defaultRuleConfig).isSome = true ∧
    (maxEdgesRule.check ⟨[], [], ['f'], 7⟩ ⟨0, 100, 0, 0, 0⟩
        defaultRuleConfig = none) :=
  ⟨(C5_max_edges_check ⟨[], [], ['f'], 7⟩ ⟨0, 101, 0, 0, 0⟩ defaultRuleConfig).1.mpr
      (by norm_num [defaultRuleConfig]),
    (C5_max_edges_check ⟨[], [], ['f'], 7⟩ ⟨0, 100, 0, 0, 0⟩ defaultRuleConfig).2.1.mpr
      (by norm_num [defaultRuleConfig])⟩

theorem cyclomaticComplexityCheck_some_fields (d : Diagram) (m : Metrics)
    (cfg : RuleConfig) (i : Issue) (h : cyclomaticComplexityCheck d m cfg = some i) :
    i.rule = "cyclomatic-complexity".data ∧
      i.severity = cfg.severity.getD Severity.warning ∧
      i.filePath = d.filePath ∧ i.line = d.startLine := by
  simp only [cyclomaticComplexityCheck] at h
  split at h
  · cases h
    exact ⟨rfl, rfl, rfl, rfl⟩
  · cases h

/-- C3: the cyclomatic-complexity rule computes complexity as decision-node
count plus one, and any diagram whose text contains exactly 12
decision-shaped nodes yields complexity 13 > 10 and, under the default
configuration, exactly one issue of severity `warning`. -/
theorem C3_cyclomatic_scenario :
    (∀ content : Str,
      calculateCyclomaticComplexity (countDecisionNodes content) =
        countDecisionNodes content + 1) ∧
    (∀ (d : Diagram) (m : Metrics), countDecisionNodes d.content = 12 →
      ∃ i, cyclomaticComplexityRule.check d m defaultRuleConfig = some i ∧
        i.severity = Severity.warning) := by
  refine ⟨fun content => rfl, ?_⟩
  intro d m h
  have hs : (cyclomaticComplexityCheck d m defaultRuleConfig).isSome = true := by
    rw [cyclomaticComplexityCheck_isSome_iff, h]
    norm_num [defaultRuleConfig, calculateCyclomaticComplexity]
  obtain ⟨i, hi⟩ := Option.isSome_iff_exists.mp hs
  refine ⟨i, hi, ?_⟩
  exact (cyclomaticComplexityCheck_some_fields d m defaultRuleConfig i hi).2.1

/-- Witness for C3: a concrete diagram text with twelve decision nodes. -/
theorem C3_cyclomatic_scenario_witness :
    ∃ i, cyclomaticComplexityRule.check
        ⟨("A\x7bq\x7d B\x7bq\x7d C\x7bq\x7d D\x7bq\x7d E\x7bq\x7d F\x7bq\x7d G\x7bq\x7d H\x7bq\x7d I\x7bq\x7d J\x7bq\x7d K\x7bq\x7d L\x7bq\x7d".data),
         [], [], 1⟩ ⟨0, 0, 0, 0, 0⟩ defaultRuleConfig = some i ∧
      i.severity = Severity.warning :=
  C3_cyclomatic_scenario.2
    ⟨("A\x7bq\x7d B\x7bq\x7d C\x7bq\x7d D\x7bq\x7d E\x7bq\x7d F\x7bq\x7d G\x7bq\x7d H\x7bq\x7d I\x7bq\x7d J\x7bq\x7d K\x7bq\x7d L\x7bq\x7d".data),
     [], [], 1⟩ ⟨0, 0, 0, 0, 0⟩ (by decide)

theorem mem_takeWhile_pred {α : Type} (p : α → Bool) :
    ∀ (l : List α) (a : α), a ∈ l.takeWhile p → p a = true := by
  intro l
  induction l with
  | nil => intro a h; simp [List.takeWhile] at h
  | cons x xs ih =>
    intro a h
    rw [List.takeWhile_cons] at h
    split at h
    · rcases List.mem_cons.mp h with rfl | h2
      · assumption
      · exact ih a h2
    · simp at h

theorem matchDecisionAt_shape (s run rem : Str)
    (h : matchDecisionAt s = some (run, rem)) :
    ∃ c cs, run = c :: cs ∧ c.isUpper = true ∧
      ∀ ch ∈ cs, isUpperOrDigit ch = true := by
  unfold matchDecisionAt at h
  cases s with
  | nil => cases h
  | cons c rest =>
    by_cases hu : c.isUpper = true
    · simp only [hu, if_true] at h
      split at h
      · split at h
        · split at h
          · split at h
            · cases h
              refine ⟨c, rest.takeWhile isUpperOrDigit, ?_, hu, ?_⟩
              · rw [List.takeWhile_cons, if_pos (by simp [isUpperOrDigit, hu])]
              · intro ch hch
                exact mem_takeWhile_pred isUpperOrDigit rest ch hch
            · cases h
          · cases h
        · cases h
      · cases h
    · simp only [hu, if_false] at h
      simp at hu
      simp [hu] at h

theorem decisionScanF_shape :
    ∀ (fuel : Nat) (prev : Option Char) (s ident : Str),
      ident ∈ decisionScanF fuel prev s →
      ∃ c cs, ident = c :: cs ∧ c.isUpper = true ∧
        ∀ ch ∈ cs, isUpperOrDigit ch = true := by
  intro fuel
  induction fuel with
  | zero => intro prev s ident h; simp [decisionScanF] at h
  | succ n ih =>
    intro prev s ident h
    cases s with
    | nil => simp [decisionScanF] at h
    | cons c rest =>
      rw [decisionScanF] at h
      split at h
      · cases hm : matchDecisionAt (c :: rest) with
        | some pr =>
          rw [hm] at h
          rcases List.mem_cons.mp h with rfl | h2
          · exact matchDecisionAt_shape (c :: rest) pr.1 pr.2 (by rw [hm])
          · exact ih _ _ _ h2
        | none =>
          rw [hm] at h
          exact ih _ _ _ h
      · exact ih _ _ _ h

/-- C10: every identifier counted by the decision-node pattern consists of
an uppercase letter followed solely by uppercase letters or digits; a
diamond node whose identifier contains a lowercase letter (for example
`ok` or `Ab`) contributes nothing to `countDecisionNodes`. -/
theorem C10_decision_node_identifier :
    (∀ (content ident : Str), ident ∈ decisionMatches content →
      ∃ c cs, ident = c :: cs ∧ c.isUpper = true ∧
        ∀ ch ∈ cs, isUpperOrDigit ch = true) ∧
    countDecisionNodes ("ok\x7bx\x7d".data) = 0 ∧
    countDecisionNodes ("Ab\x7bx\x7d".data) = 0 := by
  refine ⟨?_, by decide, by decide⟩
  intro content ident h
  exact decisionScanF_shape _ _ _ _ h

/-- Witness for C10: the identifier matched in `A{x}` has the stated
shape. -/
theorem C10_decision_node_identifier_witness :
    ∃ c cs, ("A".data) = c :: cs ∧ c.isUpper = true ∧
      ∀ ch ∈ cs, isUpperOrDigit ch = true :=
  C10_decision_node_identifier.1 ("A\x7bx\x7d".data) ("A".data) (by decide)

/-- C6: whenever the inheritance pattern matches on a non-comment,
non-`class ` line, the recorded relationship has type `inheritance`, its
`from` field is the syntactic right operand (the child) and its `to` field
is the syntactic left operand (the parent); concretely
`Animal <|-- Dog` records `Dog → Animal`. -/
theorem C6_inheritance_direction :
    (∀ (line parent child : Str) (lbl : Option Str),
      strStarts (trim line) ("%%".data) = false →
      strStarts (trim line) ("class ".data) = false →
      scanFirst matchInheritAt (trim line) = some (parent, child, lbl) →
      relOfLine line = some ⟨child, parent, RelationshipType.inheritance,
        lbl.map trim, none⟩) ∧
    extractRelationships ("Animal <|-- Dog".data) =
      [⟨"Dog".data, "Animal".data, RelationshipType.inheritance, none, none⟩] := by
  refine ⟨?_, by decide⟩
  intro line parent child lbl h1 h2 h3
  simp [relOfLine, h1, h2, h3]

/-- Witness for C6 on the line `A <|-- B`. -/
theorem C6_inheritance_direction_witness :
    relOfLine ("A <|-- B".data) =
      some ⟨"B".data, "A".data, RelationshipType.inheritance, none, none⟩ :=
  C6_inheritance_direction.1 ("A <|-- B".data) ("A".data) ("B".data) none
    (by decide) (by decide) (by decide)

/-- Invariant of the class map: every stored method contains `'('` and no
stored attribute does. -/
def MethodsClassified (m : ClassMap) : Prop :=
  ∀ e ∈ m, (∀ mem ∈ e.2.methods, lparen ∈ mem) ∧
    (∀ mem ∈ e.2.attributes, lparen ∉ mem)

theorem cmEnsure_classified (m : ClassMap) (name : Str)
    (h : MethodsClassified m) : MethodsClassified (cmEnsure m name) := by
  unfold cmEnsure
  split
  · exact h
  · intro e he
    rcases List.mem_append.mp he with h1 | h2
    · exact h e h1
    · simp only [List.mem_singleton] at h2
      subst h2
      refine ⟨?_, ?_⟩ <;> intro mem hm <;> simp at hm

theorem pushMember_classified (node : ClassNode) (mem : Str)
    (h1 : ∀ x ∈ node.methods, lparen ∈ x)
    (h2 : ∀ x ∈ node.attributes, lparen ∉ x) :
    (∀ x ∈ (pushMember node mem).methods, lparen ∈ x) ∧
    (∀ x ∈ (pushMember node mem).attributes, lparen ∉ x) := by
  by_cases hmem : lparen ∈ mem
  · unfold pushMember
    rw [if_pos hmem]
    refine ⟨?_, h2⟩
    intro x hx
    rcases List.mem_append.mp hx with hx1 | hx2
    · exact h1 x hx1
    · simp only [List.mem_singleton] at hx2
      subst hx2
      exact hmem
  · unfold pushMember
    rw [if_neg hmem]
    refine ⟨h1, ?_⟩
    intro x hx
    rcases List.mem_append.mp hx with hx1 | hx2
    · exact h2 x hx1
    · simp only [List.mem_singleton] at hx2
      subst hx2
      exact hmem

theorem cmAddMember_classified :
    ∀ (m : ClassMap) (name mem : Str), MethodsClassified m →
      MethodsClassified (cmAddMember m name mem) := by
  intro m
  induction m with
  | nil => intro name mem h; simpa [cmAddMember] using h
  | cons e rest ih =>
    intro name mem h
    obtain ⟨k, node⟩ := e
    unfold cmAddMember
    split
    · intro e' he'
      rcases List.mem_cons.mp he' with rfl | h2
      · have hk := h (k, node) (List.mem_cons_self _ _)
        exact pushMember_classified node mem hk.1 hk.2
      · exact h e' (List.mem_cons_of_mem _ h2)
    · intro e' he'
      rcases List.mem_cons.mp he' with rfl | h2
      · exact h (k, node) (List.mem_cons_self _ _)
      · exact ih name mem (fun x hx => h x (List.mem_cons_of_mem _ hx)) e' h2

theorem classLineStep_classified (st : ClassScanState) (line : Str)
    (h : MethodsClassified st.classes) :
    MethodsClassified (classLineStep st line).classes := by
  simp only [classLineStep]
  repeat' split
  all_goals
    first
      | exact h
      | exact cmEnsure_classified _ _ h
      | exact cmAddMember_classified _ _ _ (cmEnsure_classified _ _ h)
      | exact cmAddMember_classified _ _ _ h

theorem foldl_preserve {α β : Type} (P : α → Prop) (f : α → β → α)
    (hstep : ∀ a b, P a → P (f a b)) :
    ∀ (l : List β) (init : α), P init → P (l.foldl f init) := by
  intro l
  induction l with
  | nil => intro init h; exact h
  | cons b t ih => intro init h; exact ih (f init b) (hstep init b h)

theorem extractClasses_classified (content : Str) :
    MethodsClassified (extractClasses content) := by
  unfold extractClasses
  exact foldl_preserve (fun st : ClassScanState => MethodsClassified st.classes)
    classLineStep (fun st line hst => classLineStep_classified st line hst)
    (splitLines content) ⟨[], none, false⟩ (by intro e he; simp at he)

theorem cmGet_mem :
    ∀ (m : ClassMap) (name : Str) (node : ClassNode),
      cmGet m name = some node → (name, node) ∈ m := by
  intro m
  induction m with
  | nil => intro name node h; cases h
  | cons e rest ih =>
    intro name node h
    obtain ⟨k, nd⟩ := e
    unfold cmGet at h
    split at h
    · cases h
      rename_i hk
      subst hk
      exact List.mem_cons_self _ _
    · exact List.mem_cons_of_mem _ (ih name node h)

/-- C7: every member stored by the class parser — through the line-style
or the block-style path — is classified as a method exactly when its text
contains `'('`, and as an attribute exactly otherwise. -/
theorem C7_member_classification :
    ∀ (content name : Str) (node : ClassNode),
      cmGet (extractClasses content) name = some node →
      (∀ mem ∈ node.methods, lparen ∈ mem) ∧
      (∀ mem ∈ node.attributes, lparen ∉ mem) := by
  intro content name node h
  exact extractClasses_classified content (name, node)
    (cmGet_mem (extractClasses content) name node h)

/-- Witness for C7: a diagram with a line-style member and a block-style
class body. -/
theorem C7_member_classification_witness :
    (∀ mem ∈ (⟨"B".data, ["name".data], ["run(x)".data]⟩ : ClassNode).methods,
      lparen ∈ mem) ∧
    (∀ mem ∈ (⟨"B".data, ["name".data], ["run(x)".data]⟩ : ClassNode).attributes,
      lparen ∉ mem) :=
  C7_member_classification
    ("A : +foo()\nclass B \x7b\n  +run(x)\n  name\n\x7d".data) ("B".data)
    ⟨"B".data, ["name".data], ["run(x)".data]⟩ (by decide)

theorem foldl_insertUnique_mem :
    ∀ (l acc : List Str) (x : Str),
      x ∈ l.foldl insertUnique acc → x ∈ acc ∨ x ∈ l := by
  intro l
  induction l with
  | nil => intro acc x h; exact Or.inl h
  | cons b t ih =>
    intro acc x h
    rcases ih (insertUnique acc b) x h with h1 | h2
    · unfold insertUnique at h1
      split at h1
      · exact Or.inl h1
      · rcases List.mem_append.mp h1 with ha | hb
        · exact Or.inl ha
        · simp only [List.mem_singleton] at hb
          subst hb
          exact Or.inr (List.mem_cons_self _ _)
    · exact Or.inr (List.mem_cons_of_mem _ h2)

theorem extractNodeIds_mem (content : Str) (nodeId : Str)
    (h : nodeId ∈ extractNodeIds content) :
    ∃ line ∈ splitLines content, nodeId ∈ lineNodeIds line := by
  unfold extractNodeIds at h
  rcases foldl_insertUnique_mem _ [] nodeId h with h1 | h2
  · simp at h1
  · rcases List.mem_flatten.mp h2 with ⟨l, hl, hid⟩
    rcases List.mem_map.mp hl with ⟨line, hline, rfl⟩
    exact ⟨line, hline, hid⟩

theorem lineNodeIds_not_structural (line nodeId : Str)
    (h : nodeId ∈ lineNodeIds line) :
    structuralKeywords.contains nodeId = false := by
  simp only [lineNodeIds] at h
  split at h
  · simp at h
  · split at h
    · simp at h
    · have := (List.mem_filter.mp h).2
      simpa using this

/-- C8: the reserved-words rule's problematic-pattern test accepts exactly
the identifiers made of a letter `o` or `x` (either case) followed by one
or more digits; extracted node identifiers never include the structural
keywords; and directive lines contribute no node identifiers at all. -/
theorem C8_reserved_words_rule :
    (∀ nodeId : Str, hasProblematicPattern nodeId = true ↔
      ∃ c rest, nodeId = c :: rest ∧
        (c = 'o' ∨ c = 'O' ∨ c = 'x' ∨ c = 'X') ∧ rest ≠ [] ∧
        ∀ d ∈ rest, d.isDigit = true) ∧
    (∀ (content nodeId : Str), nodeId ∈ extractNodeIds content →
      structuralKeywords.contains nodeId = false) ∧
    (∀ line : Str, isDirectiveLine (trim line) = true → lineNodeIds line = []) := by
  refine ⟨?_, ?_, ?_⟩
  · intro nodeId
    cases nodeId with
    | nil => simp [hasProblematicPattern]
    | cons c rest =>
      simp only [hasProblematicPattern, Bool.and_eq_true, Bool.or_eq_true,
        decide_eq_true_eq, Bool.not_eq_true', List.all_eq_true]
      constructor
      · rintro ⟨⟨hc, hne⟩, hall⟩
        refine ⟨c, rest, rfl, by tauto, ?_, hall⟩
        intro hrest
        subst hrest
        simp at hne
      · rintro ⟨c', rest', heq, hc, hne, hall⟩
        rw [List.cons.injEq] at heq
        obtain ⟨rfl, rfl⟩ := heq
        refine ⟨⟨by tauto, ?_⟩, hall⟩
        cases rest with
        | nil => exact absurd rfl hne
        | cons _ _ => rfl
  · intro content nodeId h
    obtain ⟨line, _, hid⟩ := extractNodeIds_mem content nodeId h
    exact lineNodeIds_not_structural line nodeId hid
  · intro line h
    simp [lineNodeIds, h]

/-- Witness for C8 on concrete identifiers and lines. -/
theorem C8_reserved_words_rule_witness :
    (∃ c rest, ("x9".data) = c :: rest ∧
      (c = 'o' ∨ c = 'O' ∨ c = 'x' ∨ c = 'X') ∧ rest ≠ [] ∧
      ∀ d ∈ rest, d.isDigit = true) ∧
    structuralKeywords.contains ("A".data) = false ∧
    lineNodeIds ("style A fill".data) = [] :=
  ⟨(C8_reserved_words_rule.1 ("x9".data)).mp (by decide),
   C8_reserved_words_rule.2.1 ("A --> B".data) ("A".data) (by decide),
   C8_reserved_words_rule.2.2 ("style A fill".data) (by decide)⟩

theorem alPush_mem_self :
    ∀ (m : AdjList) (k v : Str),
      ∃ l, alGet (alPush m k v) k = some l ∧ v ∈ l := by
  intro m
  induction m with
  | nil => intro k v; exact ⟨[v], by simp [alPush, alGet], by simp⟩
  | cons e rest ih =>
    intro k v
    obtain ⟨k', l⟩ := e
    unfold alPush
    split
    · rename_i hk
      exact ⟨l ++ [v], by simp [alGet, hk], by simp⟩
    · rename_i hk
      obtain ⟨l2, h1, h2⟩ := ih k v
      exact ⟨l2, by simp [alGet, hk, h1], h2⟩

theorem alPush_mem_mono :
    ∀ (m : AdjList) (k v k' v' : Str),
      (∃ l, alGet m k = some l ∧ v ∈ l) →
      ∃ l, alGet (alPush m k' v') k = some l ∧ v ∈ l := by
  intro m
  induction m with
  | nil =>
    intro k v k' v' h
    obtain ⟨l, hl, _⟩ := h
    simp [alGet] at hl
  | cons e rest ih =>
    intro k v k' v' h
    obtain ⟨k0, l0⟩ := e
    obtain ⟨l, hl, hv⟩ := h
    unfold alGet at hl
    unfold alPush
    split
    · rename_i hpush
      split at hl
      · rename_i hget
        cases hl
        exact ⟨l0 ++ [v'], by simp [alGet, hget], List.mem_append_left _ hv⟩
      · rename_i hget
        exact ⟨l, by simp [alGet, hget, hl], hv⟩
    · rename_i hpush
      split at hl
      · rename_i hget
        cases hl
        exact ⟨l0, by simp [alGet, hget], hv⟩
      · rename_i hget
        obtain ⟨l2, h1, h2⟩ := ih k v k' v' ⟨l, hl, hv⟩
        exact ⟨l2, by simp [alGet, hget, h1], h2⟩

theorem fold_alPush_mono (kf vf : Edge → Str) :
    ∀ (l : List Edge) (m : AdjList) (k v : Str),
      (∃ ll, alGet m k = some ll ∧ v ∈ ll) →
      ∃ ll, alGet (l.foldl (fun acc e => alPush acc (kf e) (vf e)) m) k = some ll ∧
        v ∈ ll := by
  intro l
  induction l with
  | nil => intro m k v h; exact h
  | cons e t ih =>
    intro m k v h
    exact ih (alPush m (kf e) (vf e)) k v (alPush_mem_mono m k v (kf e) (vf e) h)

theorem fold_alPush_mem (kf vf : Edge → Str) :
    ∀ (l : List Edge) (init : AdjList), ∀ e ∈ l,
      ∃ ll, alGet (l.foldl (fun acc e => alPush acc (kf e) (vf e)) init) (kf e) =
        some ll ∧ vf e ∈ ll := by
  intro l
  induction l with
  | nil => intro init e he; simp at he
  | cons e0 t ih =>
    intro init e he
    rcases List.mem_cons.mp he with rfl | h2
    · exact fold_alPush_mono kf vf t _ (kf e) (vf e)
        (alPush_mem_self init (kf e) (vf e))
    · exact ih (alPush init (kf e0) (vf e0)) e h2

theorem alGet_alPush_isSome :
    ∀ (m : AdjList) (k v key : Str),
      (alGet (alPush m k v) key).isSome = true ↔
        ((alGet m key).isSome = true ∨ k = key) := by
  intro m
  induction m with
  | nil =>
    intro k v key
    by_cases h : k = key <;> simp [alPush, alGet, h]
  | cons e rest ih =>
    intro k v key
    obtain ⟨k0, l0⟩ := e
    unfold alPush
    split
    · rename_i hk
      subst hk
      by_cases hkey : k0 = key <;> simp [alGet, hkey]
    · rename_i hk
      by_cases hkey : k0 = key
      · simp [alGet, hkey]
      · simp [alGet, hkey, ih k v key]

theorem alGet_fold_isSome (kf vf : Edge → Str) :
    ∀ (l : List Edge) (init : AdjList) (key : Str),
      (alGet (l.foldl (fun acc e => alPush acc (kf e) (vf e)) init) key).isSome = true ↔
        ((alGet init key).isSome = true ∨ ∃ e ∈ l, kf e = key) := by
  intro l
  induction l with
  | nil => intro init key; simp
  | cons e0 t ih =>
    intro init key
    rw [List.foldl_cons, ih, alGet_alPush_isSome]
    simp only [List.mem_cons]
    constructor
    · rintro ((h | h) | ⟨e, he, hk⟩)
      · exact Or.inl h
      · exact Or.inr ⟨e0, Or.inl rfl, h⟩
      · exact Or.inr ⟨e, Or.inr he, hk⟩
    · rintro (h | ⟨e, (rfl | he), hk⟩)
      · exact Or.inl (Or.inl h)
      · exact Or.inl (Or.inr hk)
      · exact Or.inr ⟨e, he, hk⟩

theorem foldl_pair_split :
    ∀ (l : List Edge) (a b : AdjList),
      l.foldl (fun (maps : AdjList × AdjList) e =>
        (alPush maps.1 e.«from» e.«to», alPush maps.2 e.«to» e.«from»)) (a, b) =
      (l.foldl (fun m e => alPush m e.«from» e.«to») a,
       l.foldl (fun m e => alPush m e.«to» e.«from») b) := by
  intro l
  induction l with
  | nil => intro a b; rfl
  | cons e t ih => intro a b; exact ih (alPush a e.«from» e.«to») (alPush b e.«to» e.«from»)

/-- C1 (amended): in the graph built by `parseClassDiagram`, each edge's
source is a key of the forward adjacency map with the target in its list
and each edge's target is a key of the reverse adjacency map with the
source in its list; a node is a key of the forward (reverse) map exactly
when some edge leaves (enters) it — so endpoints without outgoing or
incoming edges are absent keys, not empty lists; and the node list is
exactly the keys of the parsed class map, which need not contain the edge
endpoints. -/
theorem C1_class_graph_construction :
    ∀ content : Str,
      (∀ e ∈ (parseClassDiagram content).graph.edges,
        ∃ l, alGet (parseClassDiagram content).graph.adjacencyList e.«from» =
          some l ∧ e.«to» ∈ l) ∧
      (∀ e ∈ (parseClassDiagram content).graph.edges,
        ∃ l, alGet (parseClassDiagram content).graph.reverseAdjacencyList e.«to» =
          some l ∧ e.«from» ∈ l) ∧
      (∀ key : Str,
        (alGet (parseClassDiagram content).graph.adjacencyList key).isSome = true ↔
          ∃ e ∈ (parseClassDiagram content).graph.edges, e.«from» = key) ∧
      (∀ key : Str,
        (alGet (parseClassDiagram content).graph.reverseAdjacencyList key).isSome = true ↔
          ∃ e ∈ (parseClassDiagram content).graph.edges, e.«to» = key) ∧
      (parseClassDiagram content).graph.nodes =
        cmKeys (parseClassDiagram content).classes := by
  intro content
  simp only [parseClassDiagram, buildGraphFromRelationships, foldl_pair_split]
  refine ⟨?_, ?_, ?_, ?_, trivial⟩
  · intro e he
    exact fold_alPush_mem (fun e => e.«from») (fun e => e.«to») _ [] e he
  · intro e he
    exact fold_alPush_mem (fun e => e.«to») (fun e => e.«from») _ [] e he
  · intro key
    rw [alGet_fold_isSome (fun e => e.«from») (fun e => e.«to») _ [] key]
    simp [alGet]
  · intro key
    rw [alGet_fold_isSome (fun e => e.«to») (fun e => e.«from») _ [] key]
    simp [alGet]

/-- Witness for C1's amended statement on `A <|-- B`. -/
theorem C1_class_graph_construction_witness :
    ∃ l, alGet (parseClassDiagram ("A <|-- B".data)).graph.adjacencyList
        ("B".data) = some l ∧ ("A".data) ∈ l :=
  (C1_class_graph_construction ("A <|-- B".data)).1
    ⟨"B".data, "A".data, none⟩ (by decide)

/-- Counterexample to C1 as stated: in the diagram `A <|-- B` both edge
endpoints are referenced by a relationship, yet the node list is empty
(neither endpoint is a member), `A` — which has no outgoing edge — is not
a key of the forward adjacency map, and `B` — which has no incoming edge —
is not a key of the reverse adjacency map. -/
theorem C1_class_graph_counterexample :
    (parseClassDiagram ("A <|-- B".data)).graph.edges =
      [⟨"B".data, "A".data, none⟩] ∧
    (parseClassDiagram ("A <|-- B".data)).graph.nodes = [] ∧
    alGet (parseClassDiagram ("A <|-- B".data)).graph.adjacencyList
      ("A".data) = none ∧
    alGet (parseClassDiagram ("A <|-- B".data)).graph.reverseAdjacencyList
      ("B".data) = none := by
  refine ⟨by decide, by decide, by decide, by decide⟩

/-- C9: for every built-in viewport profile, the three pixel-threshold
tiers are strictly increasing across info, warning and error, both for
width and for height. -/
theorem C9_viewport_tiers_increasing :
    ∀ p ∈ builtInViewportProfiles,
      p.2.widthThresholds.info < p.2.widthThresholds.warning ∧
      p.2.widthThresholds.warning < p.2.widthThresholds.error ∧
      p.2.heightThresholds.info < p.2.heightThresholds.warning ∧
      p.2.heightThresholds.warning < p.2.heightThresholds.error := by
  decide

/-- Witness for C9 at the head profile of the list. -/
theorem C9_viewport_tiers_increasing_witness :
    ((builtInViewportProfiles.head (by decide)).2.widthThresholds.info <
      (builtInViewportProfiles.head (by decide)).2.widthThresholds.warning ∧
     (builtInViewportProfiles.head (by decide)).2.widthThresholds.warning <
      (builtInViewportProfiles.head (by decide)).2.widthThresholds.error ∧
     (builtInViewportProfiles.head (by decide)).2.heightThresholds.info <
      (builtInViewportProfiles.head (by decide)).2.heightThresholds.warning ∧
     (builtInViewportProfiles.head (by decide)).2.heightThresholds.warning <
      (builtInViewportProfiles.head (by decide)).2.heightThresholds.error) :=
  C9_viewport_tiers_increasing (builtInViewportProfiles.head (by decide))
    (List.head_mem (by decide))

end MermaidSonar
